import Mathlib

/-!
Verification development for the `amplifier-session-insights` repository
(module `hooks-session-learning`).  The Python source in
`amplifier_module_hooks_session_learning/__init__.py` is shallowly embedded
below: pure computations become Lean functions, the file system and the
event-loop environment become explicit values threaded through the
definitions, and Python exceptions become `Except` results.
-/

namespace SessionLearning

/-- The opening-brace character, kept as a named constant. -/
def lbrace : Char := Char.ofNat 123

/-- The closing-brace character, kept as a named constant. -/
def rbrace : Char := Char.ofNat 125

/-! ## Configuration (`PrivacyConfig`, `SessionLearningConfig`) -/

/-- Embeds the `PrivacyConfig` dataclass with its field defaults. -/
structure PrivacyConfig where
  level : String := "self"
  include_file_paths : Bool := true
  include_code_snippets : Bool := false
  redact_sensitive : Bool := true
  max_context_tokens : Int := 50000
  deriving DecidableEq, Repr

/-- Embeds the `SessionLearningConfig` dataclass with its field defaults.
`max_events_to_process` is a count, kept as `Nat`; the thresholds are
Python ints, kept as `Int`. -/
structure SessionLearningConfig where
  always_save_metrics : Bool := true
  min_turns_for_metrics : Int := 2
  min_duration_for_metrics : Int := 30
  llm_analysis_mode : String := "threshold"
  min_turns_for_llm_analysis : Int := 5
  min_duration_for_llm_analysis : Int := 300
  min_turns_for_analysis : Int := 3
  min_duration_seconds : Int := 60
  max_events_to_process : Nat := 1000
  analysis_timeout_seconds : Int := 60
  run_in_background : Bool := true
  privacy : PrivacyConfig := {}
  deriving DecidableEq, Repr

/-! ## JSON values and a model of Python's `json.loads`

`json.loads` is the Python standard library's JSON decoder; the model below
implements the JSON grammar (null / booleans / numbers / strings with the
standard escapes / arrays / objects, with JSON whitespace) over a fuel
parameter.  Numbers are stored as rationals.  On any input that is not a
single JSON document the model fails, matching `json.JSONDecodeError`. -/

inductive Json where
  | null
  | bool (b : Bool)
  | num (q : ℚ)
  | str (s : String)
  | arr (items : List Json)
  | obj (fields : List (String × Json))

/-- JSON whitespace accepted by Python's decoder. -/
def isJsonWs (c : Char) : Bool :=
  c = ' ' || c = '\t' || c = '\n' || c = '\r'

/-- Skip leading JSON whitespace. -/
def skipWs (l : List Char) : List Char := l.dropWhile isJsonWs

/-- Hex digit value, if the character is one. -/
def hexVal (c : Char) : Option Nat :=
  if '0' ≤ c ∧ c ≤ '9' then some (c.toNat - '0'.toNat)
  else if 'a' ≤ c ∧ c ≤ 'f' then some (c.toNat - 'a'.toNat + 10)
  else if 'A' ≤ c ∧ c ≤ 'F' then some (c.toNat - 'A'.toNat + 10)
  else none

/-- Decode the body of a JSON string literal (after the opening quote):
returns the decoded characters and the input following the closing quote. -/
def parseStrChars : List Char → Option (List Char × List Char)
  | [] => none
  | c :: rest =>
    if c = '"' then some ([], rest)
    else if c = '\\' then
      match rest with
      | [] => none
      | e :: rest2 =>
        if e = 'u' then
          match rest2 with
          | h1 :: h2 :: h3 :: h4 :: rest3 =>
            match hexVal h1, hexVal h2, hexVal h3, hexVal h4 with
            | some a, some b, some c2, some d =>
              (parseStrChars rest3).map fun (cs, rem) =>
                (Char.ofNat (((a * 16 + b) * 16 + c2) * 16 + d) :: cs, rem)
            | _, _, _, _ => none
          | _ => none
        else
          let dec : Option Char :=
            if e = '"' then some '"'
            else if e = '\\' then some '\\'
            else if e = '/' then some '/'
            else if e = 'b' then some (Char.ofNat 8)
            else if e = 'f' then some (Char.ofNat 12)
            else if e = 'n' then some '\n'
            else if e = 'r' then some '\r'
            else if e = 't' then some '\t'
            else none
          match dec with
          | none => none
          | some d => (parseStrChars rest2).map fun (cs, rem) => (d :: cs, rem)
    else
      (parseStrChars rest).map fun (cs, rem) => (c :: cs, rem)

/-- Parse an unsigned decimal digit run, returning its value and the rest. -/
def parseDigits : List Char → Option (Nat × Nat × List Char)
  | l =>
    let digs := l.takeWhile Char.isDigit
    let rest := l.dropWhile Char.isDigit
    if digs.isEmpty then none
    else some (digs.foldl (fun acc c => acc * 10 + (c.toNat - '0'.toNat)) 0,
               digs.length, rest)

/-- Parse a JSON number (optional minus, integer part, optional fraction,
optional exponent), returned as a rational. -/
def parseNum (l : List Char) : Option (ℚ × List Char) := do
  let (neg, l1) := match l with
    | c :: rest => if c = '-' then (true, rest) else (false, l)
    | [] => (false, l)
  let (ip, _, l2) ← parseDigits l1
  let (frac, l3) : ℚ × List Char :=
    match l2 with
    | c :: rest =>
      if c = '.' then
        match parseDigits rest with
        | some (fv, fd, l3') => ((fv : ℚ) / ((10 : ℚ) ^ fd), l3')
        | none => (0, l2)
      else (0, l2)
    | [] => (0, l2)
  -- a fraction dot with no digits is a decode error in Python; the model
  -- only reaches that case with `frac = 0` and the rest still holding `.`,
  -- which then fails at the document level (trailing garbage)
  let (ex, l4) : Option Int × List Char :=
    match l3 with
    | c :: rest =>
      if c = 'e' ∨ c = 'E' then
        let (esign, r2) := match rest with
          | d :: r3 => if d = '-' then ((-1 : Int), r3)
                       else if d = '+' then ((1 : Int), r3) else ((1 : Int), rest)
          | [] => ((1 : Int), rest)
        match parseDigits r2 with
        | some (ev, _, l4') => (some (esign * ev), l4')
        | none => (none, l3)
      else (some 0, l3)
    | [] => (some 0, l3)
  let e ← ex
  let mag : ℚ := ((ip : ℚ) + frac) * ((10 : ℚ) ^ e)
  some (if neg then -mag else mag, l4)

mutual

/-- Parse one JSON value from the input (leading whitespace allowed). -/
def parseVal : Nat → List Char → Option (Json × List Char)
  | 0, _ => none
  | Nat.succ fuel, l =>
    match skipWs l with
    | [] => none
    | c :: rest =>
      if c = '"' then
        (parseStrChars rest).map fun (cs, rem) => (Json.str (String.mk cs), rem)
      else if c = lbrace then
        match skipWs rest with
        | d :: rest2 =>
          if d = rbrace then some (Json.obj [], rest2)
          else (parseObjItems fuel (skipWs rest)).map fun (kvs, rem) =>
            (Json.obj kvs, rem)
        | [] => none
      else if c = '[' then
        match skipWs rest with
        | d :: rest2 =>
          if d = ']' then some (Json.arr [], rest2)
          else (parseArrItems fuel (skipWs rest)).map fun (vs, rem) =>
            (Json.arr vs, rem)
        | [] => none
      else if c = 't' then
        match rest with
        | 'r' :: 'u' :: 'e' :: rem => some (Json.bool true, rem)
        | _ => none
      else if c = 'f' then
        match rest with
        | 'a' :: 'l' :: 's' :: 'e' :: rem => some (Json.bool false, rem)
        | _ => none
      else if c = 'n' then
        match rest with
        | 'u' :: 'l' :: 'l' :: rem => some (Json.null, rem)
        | _ => none
      else if c = '-' ∨ c.isDigit then
        (parseNum (c :: rest)).map fun (q, rem) => (Json.num q, rem)
      else none

/-- Parse one or more comma-separated JSON values (array members). -/
def parseArrItems : Nat → List Char → Option (List Json × List Char)
  | 0, _ => none
  | Nat.succ fuel, l => do
    let (v, rem) ← parseVal fuel l
    match skipWs rem with
    | ',' :: rest => (parseArrItems fuel rest).map fun (vs, rem2) => (v :: vs, rem2)
    | ']' :: rest => some ([v], rest)
    | _ => none

/-- Parse one or more comma-separated `"key": value` pairs (object members). -/
def parseObjItems : Nat → List Char → Option (List (String × Json) × List Char)
  | 0, _ => none
  | Nat.succ fuel, l =>
    match skipWs l with
    | c :: rest =>
      if c = '"' then do
        let (ks, rem) ← parseStrChars rest
        match skipWs rem with
        | ':' :: rest2 => do
          let (v, rem2) ← parseVal fuel rest2
          match skipWs rem2 with
          | ',' :: rest3 =>
            (parseObjItems fuel rest3).map fun (kvs, rem3) =>
              ((String.mk ks, v) :: kvs, rem3)
          | d :: rest3 =>
            if d = rbrace then some ([(String.mk ks, v)], rest3) else none
          | [] => none
        | _ => none
      else none
    | [] => none

end

/-- Model of Python's `json.loads`: decode a single JSON document, failing
(`JSONDecodeError`) on any leftover non-whitespace input. -/
def jsonLoads (s : String) : Except String Json :=
  match parseVal (2 * s.length + 4) s.data with
  | none => Except.error "JSONDecodeError"
  | some (v, rem) =>
    if (skipWs rem).isEmpty then Except.ok v
    else Except.error "JSONDecodeError"

/-! ## `InsightsGenerator._parse_response`

The Python body is one `try` block: `re.search(r"\{[^{}]*\}", response,
re.DOTALL)`; when a match is found, `json.loads` of the matched text is
returned; when no match is found, `json.loads` of the whole response is
returned; `except json.JSONDecodeError` turns either failure into `None`. -/

/-- A character the regex class excludes: an opening or closing brace. -/
def nonBrace (c : Char) : Bool := c ≠ lbrace && c ≠ rbrace

/-- Model of `re.search` for the pattern "opening brace, any run of
non-brace characters, closing brace": the leftmost match.  (With this
pattern the regex engine cannot backtrack usefully, so a position matches
exactly when it holds an opening brace whose next brace is a closing one.) -/
def braceSearch : List Char → Option (List Char)
  | [] => none
  | c :: rest =>
    if c = lbrace then
      let mid := rest.takeWhile nonBrace
      match rest.dropWhile nonBrace with
      | d :: _ =>
        if d = rbrace then some (c :: (mid ++ [d]))
        else braceSearch rest
      | [] => braceSearch rest
    else braceSearch rest

/-- The body of `_parse_response` before the `except` clause: the value a
`return` would produce, or the in-flight `JSONDecodeError`. -/
def parseResponseBody (response : String) : Except String Json :=
  match braceSearch response.data with
  | some m => jsonLoads (String.mk m)
  | none => jsonLoads response

/-- Embeds `InsightsGenerator._parse_response`: the `except
json.JSONDecodeError` clause converts any decode failure into `None`. -/
def parseResponse (response : String) : Option Json :=
  match parseResponseBody response with
  | Except.ok v => some v
  | Except.error _ => none

/-! ## Session event records

One line of `events.jsonl` is either blank (skipped), unparseable JSON
(skipped), or a JSON record.  The extractor reads the fields `ts`, `event`,
`lvl` and `data` (with `tool_name`, `tool_input.file_path`, `usage.input`,
`usage.output`, `model`), so the record embedding carries exactly those.
Absent string fields are modelled by the same defaults the Python `get`
calls supply; `ts` is a string (absent or falsy is the empty string, the
rare non-string `ts` is outside the model). -/

/-- The value of `data.get("tool_input", {})`: a dict possibly carrying a
`file_path` (absent or empty modelled as `""`), or a non-dict value, which
the `isinstance` guard rejects. -/
inductive ToolInputVal where
  | dict (file_path : String)
  | nondict
  deriving DecidableEq, Repr

/-- The `data` payload fields the extractor reads, with their `get`
defaults. -/
structure EventData where
  tool_name : Option String := none
  tool_input : ToolInputVal := ToolInputVal.dict ""
  usage_input : Int := 0
  usage_output : Int := 0
  model : Option String := none
  deriving DecidableEq, Repr

/-- One parsed event record. -/
structure Event where
  ts : String := ""
  event : String := ""
  data : EventData := {}
  lvl : Option String := none
  deriving DecidableEq, Repr

/-- One line of `events.jsonl` as the reading loop classifies it. -/
inductive LogLine where
  | blank
  | malformed
  | record (e : Event)
  deriving DecidableEq, Repr

/-- Python truthiness of an optional string (`None` and `""` are falsy). -/
def truthyOpt : Option String → Bool
  | none => false
  | some s => s ≠ ""

/-- Split a character list on a separator character. -/
def splitOnChar (sep : Char) : List Char → List (List Char)
  | [] => [[]]
  | c :: rest =>
    let r := splitOnChar sep rest
    if c = sep then [] :: r
    else
      match r with
      | h :: t => (c :: h) :: t
      | [] => [[c]]

/-- The final path component, as `pathlib.Path(path).name` computes it for
ordinary paths: the last nonempty `/`-separated component (`""` when none
exists). -/
def pathBasename (path : String) : String :=
  String.mk ((((splitOnChar '/' path.data).filter (· ≠ [])).getLastD []))

/-- Embeds `SessionDataExtractor._sanitize_path`.  `home` stands for
`str(Path.home())`, an environment value passed explicitly.  Python's
`path.startswith(home)` and `path[len(home):]` are character-level
operations, modelled on the character lists. -/
def sanitizePath (privacy : PrivacyConfig) (home : String) (path : String) :
    String :=
  if !privacy.include_file_paths then pathBasename path
  else if home.data.isPrefixOf path.data then
    "~" ++ String.mk (path.data.drop home.data.length)
  else path

/-- Python dict update `d[k] = d.get(k, 0) + 1`, on an insertion-ordered
association list. -/
def bumpCount (l : List (String × Nat)) (k : String) : List (String × Nat) :=
  match l with
  | [] => [(k, 1)]
  | (k', v) :: rest =>
    if k' = k then (k', v + 1) :: rest else (k', v) :: bumpCount rest k

/-- Python set insertion, on a list kept deduplicated in insertion order. -/
def setAdd (l : List String) (x : String) : List String :=
  if x ∈ l then l else l ++ [x]

/-- The mutable counters of the `extract_metrics` scan. -/
structure MetricsState where
  tool_usage : List (String × Nat) := []
  files_read : List String := []
  files_modified : List String := []
  errors : Nat := 0
  llm_requests : Nat := 0
  input_tokens : Int := 0
  output_tokens : Int := 0
  model_used : Option String := none
  first_ts : Option String := none
  last_ts : Option String := none
  deriving DecidableEq, Repr

/-- The timestamp-tracking step at the top of the loop body: a truthy
`ts` sets `first_ts` once and `last_ts` every time. -/
def tsUpdate (st : MetricsState) (e : Event) : MetricsState :=
  if e.ts ≠ "" then
    { st with
      first_ts := match st.first_ts with
        | none => some e.ts
        | some f => some f,
      last_ts := some e.ts }
  else st

/-- The `elif` chain over `event.get("event", "")` in the loop body. -/
def classifyEvent (privacy : PrivacyConfig) (home : String)
    (st : MetricsState) (e : Event) : MetricsState :=
  if e.event = "tool:post" then
    let tool_name := e.data.tool_name.getD "unknown"
    let st := { st with tool_usage := bumpCount st.tool_usage tool_name }
    match e.data.tool_input with
    | ToolInputVal.dict fp =>
      if fp ≠ "" then
        if tool_name = "read_file" then
          { st with files_read := setAdd st.files_read (sanitizePath privacy home fp) }
        else if tool_name = "write_file" ∨ tool_name = "edit_file" then
          { st with files_modified := setAdd st.files_modified (sanitizePath privacy home fp) }
        else st
      else st
    | ToolInputVal.nondict => st
  else if e.event = "llm:response" then
    { st with
      llm_requests := st.llm_requests + 1,
      input_tokens := st.input_tokens + e.data.usage_input,
      output_tokens := st.output_tokens + e.data.usage_output,
      model_used := if truthyOpt st.model_used then st.model_used else e.data.model }
  else if e.event = "tool:error" ∨ e.event = "llm:error" then
    { st with errors := st.errors + 1 }
  else if e.lvl = some "ERROR" then
    { st with errors := st.errors + 1 }
  else st

/-- Embeds the per-record body of the `extract_metrics` loop (the
timestamp tracking followed by the `elif` chain over `event`). -/
def processEvent (privacy : PrivacyConfig) (home : String)
    (st : MetricsState) (e : Event) : MetricsState :=
  classifyEvent privacy home (tsUpdate st e) e

/-- One loop iteration over one line: blank and unparseable lines are
skipped (after counting), records are processed. -/
def processLine (privacy : PrivacyConfig) (home : String)
    (st : MetricsState) : LogLine → MetricsState
  | LogLine.blank => st
  | LogLine.malformed => st
  | LogLine.record e => processEvent privacy home st e

/-- Embeds the reading loop of `extract_metrics`: each line first checks
`event_count >= max_events_to_process` and breaks, then increments the
counter and processes the line. -/
def extractLoop (privacy : PrivacyConfig) (home : String) (maxEvents : Nat)
    (count : Nat) (st : MetricsState) : List LogLine → MetricsState
  | [] => st
  | l :: rest =>
    if maxEvents ≤ count then st
    else extractLoop privacy home maxEvents (count + 1)
      (processLine privacy home st l) rest

/-! ## Timestamp parsing and duration

`extract_metrics` computes the duration with
`datetime.fromisoformat(ts.replace("Z", "+00:00"))` on the first and last
seen timestamps, subtracts, and falls back to `0` on `ValueError` or
`TypeError`.  The model below implements `fromisoformat` for the ISO-8601
forms the events use: `YYYY-MM-DD`, optionally followed by a `T` or space
separator and `HH:MM[:SS[.ffffff]]`, optionally followed by a `+HH:MM` or
`-HH:MM` offset.  A parsed value is a naive wall-clock instant in
microseconds since the epoch plus an optional offset in minutes; Python
raises `TypeError` when subtracting a naive from an aware datetime, which
the difference function models by returning `none`. -/

/-- A parsed datetime: naive epoch microseconds plus optional UTC offset
in minutes. -/
structure PyDateTime where
  epochMicro : Int
  offsetMin : Option Int
  deriving DecidableEq, Repr

/-- Days from the epoch for a civil date (proleptic Gregorian). -/
def daysFromCivil (y : Int) (m d : Nat) : Int :=
  let y' : Int := if m ≤ 2 then y - 1 else y
  let era : Int := Int.fdiv y' 400
  let yoe : Int := y' - era * 400
  let mp : Int := ((m : Int) + 9) % 12
  let doy : Int := Int.fdiv (153 * mp + 2) 5 + (d : Int) - 1
  let doe : Int := yoe * 365 + Int.fdiv yoe 4 - Int.fdiv yoe 100 + doy
  era * 146097 + doe - 719468

/-- Gregorian leap-year test. -/
def isLeapYear (y : Int) : Bool :=
  (y % 4 = 0 ∧ y % 100 ≠ 0) ∨ y % 400 = 0

/-- Number of days in a month. -/
def daysInMonth (y : Int) (m : Nat) : Nat :=
  if m = 2 then (if isLeapYear y then 29 else 28)
  else if m = 4 ∨ m = 6 ∨ m = 9 ∨ m = 11 then 30
  else 31

/-- Read exactly `n` decimal digits as a number. -/
def readFixedDigits (n : Nat) (l : List Char) : Option (Nat × List Char) :=
  let digs := l.take n
  if digs.length = n ∧ digs.all Char.isDigit then
    some (digs.foldl (fun acc c => acc * 10 + (c.toNat - '0'.toNat)) 0, l.drop n)
  else none

/-- Parse a `±HH:MM` UTC offset into minutes. -/
def parseOffset (l : List Char) : Option (Int × List Char) := do
  match l with
  | c :: rest =>
    if c = '+' ∨ c = '-' then do
      let (hh, r1) ← readFixedDigits 2 rest
      match r1 with
      | ':' :: r2 => do
        let (mm, r3) ← readFixedDigits 2 r2
        if hh ≤ 23 ∧ mm ≤ 59 then
          let mins : Int := hh * 60 + mm
          some (if c = '-' then -mins else mins, r3)
        else none
      | _ => none
    else none
  | [] => none

/-- Parse the optional `[:SS[.ffffff]]` tail of a time, returning seconds
and microseconds. -/
def parseSecondsTail (l : List Char) : Option (Nat × Nat × List Char) :=
  match l with
  | ':' :: rest => do
    let (ss, r1) ← readFixedDigits 2 rest
    if ss ≤ 59 then
      match r1 with
      | '.' :: r2 =>
        let digs := r2.takeWhile Char.isDigit
        if digs.length ≥ 1 ∧ digs.length ≤ 6 then
          let v := digs.foldl (fun acc c => acc * 10 + (c.toNat - '0'.toNat)) 0
          some (ss, v * 10 ^ (6 - digs.length), r2.drop digs.length)
        else none
      | _ => some (ss, 0, r1)
    else none
  | _ => some (0, 0, l)

/-- Model of `datetime.fromisoformat` on the supported forms; `none`
models `ValueError`. -/
def parsePyIso (s : String) : Option PyDateTime := do
  let l := s.data
  let (y, r1) ← readFixedDigits 4 l
  match r1 with
  | '-' :: r2 => do
    let (mo, r3) ← readFixedDigits 2 r2
    match r3 with
    | '-' :: r4 => do
      let (d, r5) ← readFixedDigits 2 r4
      if 1 ≤ mo ∧ mo ≤ 12 ∧ 1 ≤ d ∧ d ≤ daysInMonth y mo then
        let dayMicro : Int := daysFromCivil y mo d * 86400000000
        match r5 with
        | [] => some { epochMicro := dayMicro, offsetMin := none }
        | sep :: r6 =>
          if sep = 'T' ∨ sep = ' ' then do
            let (hh, r7) ← readFixedDigits 2 r6
            match r7 with
            | ':' :: r8 => do
              let (mi, r9) ← readFixedDigits 2 r8
              if hh ≤ 23 ∧ mi ≤ 59 then do
                let (ss, us, r10) ← parseSecondsTail r9
                let naive : Int := dayMicro +
                  (((hh * 3600 + mi * 60 + ss : Nat) : Int) * 1000000) + (us : Int)
                match r10 with
                | [] => some { epochMicro := naive, offsetMin := none }
                | _ => do
                  let (off, r11) ← parseOffset r10
                  if r11.isEmpty then
                    some { epochMicro := naive, offsetMin := some off }
                  else none
              else none
            | _ => none
          else none
      else none
    | _ => none
  | _ => none

/-- Python `datetime` subtraction followed by `total_seconds()`, in
seconds as a rational; `none` models the `TypeError` raised when one side
is naive and the other aware. -/
def tsDiffSeconds (t1 t2 : PyDateTime) : Option ℚ :=
  match t1.offsetMin, t2.offsetMin with
  | none, none => some (((t2.epochMicro - t1.epochMicro : Int) : ℚ) / 1000000)
  | some o1, some o2 =>
    some ((((t2.epochMicro - o2 * 60000000) - (t1.epochMicro - o1 * 60000000) : Int) : ℚ) / 1000000)
  | _, _ => none

/-- `ts.replace("Z", "+00:00")`: every occurrence of the character `Z` is
replaced by `+00:00` (the pattern is a single character, so occurrences
cannot overlap and Python's left-to-right replacement is a pointwise
map). -/
def replaceZ (s : String) : String :=
  String.mk (s.data.foldr
    (fun c acc =>
      if c = 'Z' then '+' :: '0' :: '0' :: ':' :: '0' :: '0' :: acc
      else c :: acc) [])

/-- Embeds the duration block of `extract_metrics`: guarded by the
truthiness of both endpoints, parse failures and naive/aware mismatches
fall back to `0.0`. -/
def computeDuration (first_ts last_ts : Option String) : ℚ :=
  if truthyOpt first_ts ∧ truthyOpt last_ts then
    match parsePyIso (replaceZ (first_ts.getD "")),
          parsePyIso (replaceZ (last_ts.getD "")) with
    | some t1, some t2 =>
      match tsDiffSeconds t1 t2 with
      | some d => d
      | none => 0
    | _, _ => 0
  else 0

/-! ## `SessionDataExtractor.extract_metrics` -/

/-- The metadata record fields `extract_metrics` reads, with their `get`
defaults. -/
structure Metadata where
  session_id : Option String := none
  turn_count : Int := 0
  model : Option String := none
  deriving DecidableEq, Repr

/-- Embeds the `SessionMetrics` dataclass. -/
structure SessionMetrics where
  session_id : String
  duration_seconds : ℚ
  turn_count : Int
  tool_usage : List (String × Nat)
  files_read : List String
  files_modified : List String
  errors_encountered : Nat
  llm_requests : Nat
  total_input_tokens : Int
  total_output_tokens : Int
  model_used : Option String := none
  started_at : Option String := none
  ended_at : Option String := none
  deriving DecidableEq, Repr

/-- Embeds `SessionDataExtractor.extract_metrics`.  `logContents` is the
content of `events.jsonl` as classified lines; `none` models a missing
file or an `OSError` while reading, both of which return `None`. -/
def extractMetrics (cfg : SessionLearningConfig) (home : String)
    (metadata : Metadata) (logContents : Option (List LogLine)) :
    Option SessionMetrics :=
  match logContents with
  | none => none
  | some lines =>
    let st0 : MetricsState := { model_used := metadata.model }
    let st := extractLoop cfg.privacy home cfg.max_events_to_process 0 st0 lines
    some
      { session_id := metadata.session_id.getD "unknown"
        duration_seconds := computeDuration st.first_ts st.last_ts
        turn_count := metadata.turn_count
        tool_usage := st.tool_usage
        files_read := st.files_read
        files_modified := st.files_modified
        errors_encountered := st.errors
        llm_requests := st.llm_requests
        total_input_tokens := st.input_tokens
        total_output_tokens := st.output_tokens
        model_used := st.model_used
        started_at := st.first_ts
        ended_at := st.last_ts }

/-! ## Conversation sampling (`_format_conversation_sample`, `_truncate`)

Python slicing, `rfind` and integer floor division appear below; budgets
are Python ints and can go negative (the middle-section budget is computed
from a remainder), so they are modelled as `Int` with floor division
(`Int.fdiv`) and Python slice semantics. -/

/-- Python string slice `text[:n]` with an int bound: a negative bound
counts from the end, clamped at zero. -/
def pySliceTo (l : List Char) (n : Int) : List Char :=
  if 0 ≤ n then l.take n.toNat
  else l.take (l.length - (-n).toNat)

/-- Index of the last occurrence of a character, tracking position. -/
def lastIdxAux (c : Char) : List Char → Nat → Option Nat
  | [], _ => none
  | x :: xs, i =>
    match lastIdxAux c xs (i + 1) with
    | some j => some j
    | none => if x = c then some i else none

/-- Python `s.rfind(" ")`: index of the last space, `-1` when absent. -/
def rfindSpace (l : List Char) : Int :=
  match lastIdxAux ' ' l 0 with
  | some i => (i : Int)
  | none => -1

/-- Embeds `SessionDataExtractor._truncate`.  Python compares
`last_space > max_len * 0.7` in floating point; the model uses the exact
rational comparison `10 * last_space > 7 * max_len` (the claims proved
below hold on either side of that boundary). -/
def pyTruncate (text : String) (max_len : Int) : String :=
  if (text.length : Int) ≤ max_len then text
  else
    let tr := pySliceTo text.data max_len
    let ls := rfindSpace tr
    let tr2 := if 10 * ls > 7 * max_len then pySliceTo tr ls else tr
    String.mk tr2 ++ "..."

/-- A formatted `[role]: content` line of the sample. -/
def fmtMsg (role content : String) : String := "[" ++ role ++ "]: " ++ content

/-- Embeds `SessionDataExtractor._format_conversation_sample`. -/
def formatConversationSample (messages : List (String × String))
    (max_chars : Nat) : String :=
  if messages.isEmpty then "[No messages]"
  else
    let n := messages.length
    let char_budget : Int := max_chars
    let openTrunc := (messages.take (min 4 n)).map
      (fun rc => (rc.1, pyTruncate rc.2 (min 400 (Int.fdiv char_budget 4))))
    let openParts := openTrunc.map (fun rc => fmtMsg rc.1 rc.2)
    let chars_used : Int := (openTrunc.map (fun rc => (rc.2.length : Int))).sum
    let parts1 := "=== Opening ===" :: openParts
    let parts2 :=
      if n > 10 then
        let mid_budget : Int := Int.fdiv (char_budget - chars_used) 3
        let midParts :=
          (([n / 4, n / 2, 3 * n / 4].filter
              (fun i => decide (4 ≤ i) && decide (i < n - 4))).map
            (fun i =>
              let rc := messages.getD i ("", "")
              fmtMsg rc.1 (pyTruncate rc.2 (min 300 (Int.fdiv mid_budget 3)))))
        parts1 ++ ("\n=== Middle (sampled) ===" :: midParts)
      else parts1
    let parts3 :=
      if n > 4 then
        let k := min 6 (n - 4)
        let recentParts := (messages.drop (n - k)).map
          (fun rc => fmtMsg rc.1 (pyTruncate rc.2 (min 400 (Int.fdiv char_budget 4))))
        parts2 ++ ("\n=== Recent ===" :: recentParts)
      else parts2
    String.intercalate "\n"
      (parts3 ++ ["\n[Total: " ++ toString n ++ " messages]"])

/-! ## Derived counting and provenance predicates (used to state claims) -/

/-- A record the `elif` chain counts as an error: an explicit error kind,
or a record of any *other* kind (neither tool-completion nor
model-response) flagged at error severity. -/
def countsAsError (e : Event) : Bool :=
  (e.event == "tool:error" || e.event == "llm:error") ||
  (!(e.event == "tool:post") && !(e.event == "llm:response") &&
   !(e.event == "tool:error") && !(e.event == "llm:error") &&
   e.lvl == some "ERROR")

/-- Number of scanned lines that are error-counted records. -/
def errorRecordCount (lines : List LogLine) : Nat :=
  (lines.filter fun l => match l with
    | LogLine.record e => countsAsError e
    | _ => false).length

/-- Number of scanned lines that are records with a truthy timestamp. -/
def countTimestamped (lines : List LogLine) : Nat :=
  (lines.filter fun l => match l with
    | LogLine.record e => e.ts != ""
    | _ => false).length

/-- Provenance of an entry of `files_read`: some scanned record is a
tool-completion for `read_file` carrying a nonempty `file_path` whose
sanitized form is the entry. -/
def ReadSourced (privacy : PrivacyConfig) (home : String)
    (lines : List LogLine) (q : String) : Prop :=
  ∃ e, LogLine.record e ∈ lines ∧ e.event = "tool:post" ∧
    ∃ fp, e.data.tool_input = ToolInputVal.dict fp ∧ fp ≠ "" ∧
      e.data.tool_name.getD "unknown" = "read_file" ∧
      q = sanitizePath privacy home fp

/-- Provenance of an entry of `files_modified`: some scanned record is a
tool-completion for `write_file` or `edit_file` carrying a nonempty
`file_path` whose sanitized form is the entry. -/
def WriteSourced (privacy : PrivacyConfig) (home : String)
    (lines : List LogLine) (q : String) : Prop :=
  ∃ e, LogLine.record e ∈ lines ∧ e.event = "tool:post" ∧
    ∃ fp, e.data.tool_input = ToolInputVal.dict fp ∧ fp ≠ "" ∧
      (e.data.tool_name.getD "unknown" = "write_file" ∨
       e.data.tool_name.getD "unknown" = "edit_file") ∧
      q = sanitizePath privacy home fp

/-! ## `InsightsGenerator.generate_insights` (construction stage)

The provider call itself is an external effect (modelled in the
orchestrator environment); the pure tail of `generate_insights` — parse
the response, Python-falsy check, construct the `SessionInsights`
dataclass from `result.get(...)` — is embedded here.  Python stores the
`get` results unvalidated, so the free-form fields hold raw JSON
values. -/

/-- Last-occurrence lookup in a decoded JSON object (`json.loads` keeps
the last duplicate key, and a Python dict lookup then returns it). -/
def objGetLast (kvs : List (String × Json)) (k : String) : Option Json :=
  match kvs with
  | [] => none
  | (k', v) :: rest =>
    match objGetLast rest k with
    | some w => some w
    | none => if k' = k then some v else none

/-- Python `result.get(k, d)` on a decoded JSON object. -/
def objGetD (kvs : List (String × Json)) (k : String) (d : Json) : Json :=
  (objGetLast kvs k).getD d

/-- Python truthiness of a decoded JSON value (`if not result`). -/
def jsonTruthy : Json → Bool
  | Json.null => false
  | Json.bool b => b
  | Json.num q => q ≠ 0
  | Json.str s => s ≠ ""
  | Json.arr items => !items.isEmpty
  | Json.obj fields => !fields.isEmpty

/-- The embedded metrics summary built inside `generate_insights`. -/
structure MetricsSummary where
  duration_seconds : ℚ
  turn_count : Int
  tool_usage : List (String × Nat)
  files_read_count : Nat
  files_modified_count : Nat
  errors_encountered : Nat
  llm_requests : Nat
  total_tokens : Int

/-- Embeds the `SessionInsights` dataclass as constructed by
`generate_insights`: the free-form fields hold whatever JSON values
`result.get` returned, unvalidated. -/
structure SessionInsightsJ where
  session_id : String
  generated_at : String
  metrics : MetricsSummary
  summary : Json
  outcome : Json
  what_went_well : Json
  areas_to_improve : Json
  tips_for_future : Json
  tags : Json
  privacy_level : String

/-- The `SessionInsights(...)` construction at the end of
`generate_insights`; `now` stands for `datetime.now(UTC).isoformat()`. -/
def buildInsights (cfg : SessionLearningConfig) (now : String)
    (metrics : SessionMetrics) (result : List (String × Json)) :
    SessionInsightsJ :=
  { session_id := metrics.session_id
    generated_at := now
    metrics :=
      { duration_seconds := metrics.duration_seconds
        turn_count := metrics.turn_count
        tool_usage := metrics.tool_usage
        files_read_count := metrics.files_read.length
        files_modified_count := metrics.files_modified.length
        errors_encountered := metrics.errors_encountered
        llm_requests := metrics.llm_requests
        total_tokens := metrics.total_input_tokens + metrics.total_output_tokens }
    summary := objGetD result "summary" (Json.str "No summary available")
    outcome := objGetD result "outcome" (Json.str "unknown")
    what_went_well := objGetD result "what_went_well" (Json.arr [])
    areas_to_improve := objGetD result "areas_to_improve" (Json.arr [])
    tips_for_future := objGetD result "tips_for_future" (Json.arr [])
    tags := objGetD result "tags" (Json.arr [])
    privacy_level := cfg.privacy.level }

/-- Embeds the tail of `generate_insights` once a provider response
string is in hand: `_parse_response`, the `if not result` falsy check,
then the dataclass construction; `result.get` on a truthy non-dict parse
result raises `AttributeError` (uncaught here, swallowed by the
orchestrator's supervisor). -/
def generateInsightsFromResponse (cfg : SessionLearningConfig)
    (now : String) (metrics : SessionMetrics) (response : String) :
    Except String (Option SessionInsightsJ) :=
  match parseResponse response with
  | none => Except.ok none
  | some j =>
    if !jsonTruthy j then Except.ok none
    else
      match j with
      | Json.obj kvs => Except.ok (some (buildInsights cfg now metrics kvs))
      | _ => Except.error "AttributeError"

/-- Projection used to state outcome claims over the generation result. -/
def outcomeOfResult : Except String (Option SessionInsightsJ) → Option Json
  | Except.ok (some i) => some i.outcome
  | _ => none

/-- Membership of an outcome value in the closed classification set. -/
def outcomeInClosedSet : Json → Bool
  | Json.str s =>
    s == "success" || s == "partial" || s == "abandoned" ||
    s == "error" || s == "unknown"
  | _ => false

/-! ## `InsightsStorage` (save / load)

The storage directories are fixed under the user's home directory; the
file system is modelled as an association list from paths to stored
records (a stored record stands for the serialized JSON text, which
round-trips structurally through `json.dumps`/`json.loads`).  The
temp-file write followed by the atomic rename nets to a single in-place
update of the final path, which is how it is modelled; the `OSError`
branches return `None` without touching the caller. -/

/-- The metrics-only envelope written by `save_metrics_only`
(`has_llm_analysis=False`, path lists capped at 20 entries). -/
structure MetricsEnvelope where
  session_id : String
  captured_at : String
  duration_seconds : ℚ
  turn_count : Int
  tool_usage : List (String × Nat)
  files_read_count : Nat
  files_modified_count : Nat
  files_read : List String
  files_modified : List String
  errors_encountered : Nat
  llm_requests : Nat
  total_input_tokens : Int
  total_output_tokens : Int
  total_tokens : Int
  model_used : Option String
  started_at : Option String
  ended_at : Option String
  privacy_level : String
  has_llm_analysis : Bool

/-- A record on disk: one of the two envelope families. -/
inductive StoredRecord where
  | metricsOnly (env : MetricsEnvelope)
  | insightsFull (env : SessionInsightsJ)

/-- The file system: an association list from paths to stored records. -/
def Fs : Type := List (String × StoredRecord)

/-- Write (create or overwrite) a path. -/
def fsWrite (fs : Fs) (path : String) (r : StoredRecord) : Fs :=
  match fs with
  | [] => [(path, r)]
  | (p, v) :: rest =>
    if p = path then (p, r) :: rest else (p, v) :: fsWrite rest path r

/-- Read a path (`None` when the file does not exist). -/
def fsRead (fs : Fs) (path : String) : Option StoredRecord :=
  match fs with
  | [] => none
  | (p, v) :: rest => if p = path then some v else fsRead rest path

/-- `self.metrics_dir / f"{session_id}.json"`. -/
def metricsFilePath (home sid : String) : String :=
  home ++ "/.amplifier/insights/metrics/" ++ sid ++ ".json"

/-- `self.insights_dir / f"{session_id}.json"`. -/
def insightsFilePath (home sid : String) : String :=
  home ++ "/.amplifier/insights/sessions/" ++ sid ++ ".json"

/-- The `metrics_dict` built by `save_metrics_only`. -/
def metricsEnvelope (cfg : SessionLearningConfig) (now : String)
    (m : SessionMetrics) : MetricsEnvelope :=
  { session_id := m.session_id
    captured_at := now
    duration_seconds := m.duration_seconds
    turn_count := m.turn_count
    tool_usage := m.tool_usage
    files_read_count := m.files_read.length
    files_modified_count := m.files_modified.length
    files_read := m.files_read.take 20
    files_modified := m.files_modified.take 20
    errors_encountered := m.errors_encountered
    llm_requests := m.llm_requests
    total_input_tokens := m.total_input_tokens
    total_output_tokens := m.total_output_tokens
    total_tokens := m.total_input_tokens + m.total_output_tokens
    model_used := m.model_used
    started_at := m.started_at
    ended_at := m.ended_at
    privacy_level := cfg.privacy.level
    has_llm_analysis := false }

/-- Embeds `InsightsStorage.save_metrics_only` (success path): serialize
the envelope and atomically replace
`~/.amplifier/insights/metrics/{session_id}.json`. -/
def saveMetricsOnly (cfg : SessionLearningConfig) (home now : String)
    (m : SessionMetrics) (fs : Fs) : Fs × Option String :=
  let path := metricsFilePath home m.session_id
  (fsWrite fs path (StoredRecord.metricsOnly (metricsEnvelope cfg now m)),
   some path)

/-- Embeds `InsightsStorage.save_insights` (success path): serialize the
insights record and atomically replace
`~/.amplifier/insights/sessions/{session_id}.json`. -/
def saveInsights (home : String) (ins : SessionInsightsJ) (fs : Fs) :
    Fs × Option String :=
  let path := insightsFilePath home ins.session_id
  (fsWrite fs path (StoredRecord.insightsFull ins), some path)

/-- Embeds `InsightsStorage.load_insights`: read
`~/.amplifier/insights/sessions/{session_id}.json`, `None` when
missing. -/
def loadInsights (home : String) (fs : Fs) (sid : String) :
    Option StoredRecord :=
  fsRead fs (insightsFilePath home sid)

/-! ## `SessionLearningHook` (orchestrator)

`_analyze_session` runs against an environment of external outcomes:
the extractor returns an optional metrics record (its internal `OSError`
and JSON failures already yield `None`); the sample builder returns a
string (its failure modes all yield fallback strings); the generator's
provider call can be cancelled or raise before being caught, and the
construction stage can raise `AttributeError`, so its outcome is an
`Except` carrying an optional insights record (timeout, no provider,
parse failure all yield `ok none`); the event-bus emit is an external
await that can be cancelled or raise.  The function returns the list of
storage/notification calls it performed and the in-flight exception, if
one escaped. -/

/-- A Python exception escaping an analysis step: `asyncio.CancelledError`
or any other `Exception`. -/
inductive AnalysisError where
  | cancelled
  | exn (msg : String)

/-- The externally visible calls `_analyze_session` makes. -/
inductive Effect where
  | saveMetricsCalled
  | sampleExtracted
  | generateCalled
  | saveInsightsCalled
  | emitCalled
  deriving DecidableEq, Repr

/-- External-step outcomes for one `_analyze_session` run. -/
structure AnalysisEnv where
  extractResult : Option SessionMetrics
  sampleResult : String
  generateResult : Except AnalysisError (Option SessionInsightsJ)
  emitResult : Except AnalysisError Unit

/-- Embeds `SessionLearningHook._analyze_session`: tier-1 gate and save,
mode-dependent tier-2 gate, then sample → generate → save → emit. -/
def analyzeSession (cfg : SessionLearningConfig) (env : AnalysisEnv) :
    List Effect × Option AnalysisError :=
  match env.extractResult with
  | none => ([], none)
  | some metrics =>
    let tier1 : List Effect :=
      if cfg.always_save_metrics ∧
         metrics.turn_count ≥ cfg.min_turns_for_metrics ∧
         metrics.duration_seconds ≥ (cfg.min_duration_for_metrics : ℚ) then
        [Effect.saveMetricsCalled]
      else []
    let should_run_llm : Bool :=
      if cfg.llm_analysis_mode = "automatic" then
        decide (metrics.turn_count ≥ cfg.min_turns_for_analysis) &&
        decide (metrics.duration_seconds ≥ (cfg.min_duration_seconds : ℚ))
      else if cfg.llm_analysis_mode = "threshold" then
        decide (metrics.turn_count ≥ cfg.min_turns_for_llm_analysis) &&
        decide (metrics.duration_seconds ≥ (cfg.min_duration_for_llm_analysis : ℚ))
      else false
    if !should_run_llm then (tier1, none)
    else
      let effs := tier1 ++ [Effect.sampleExtracted]
      match env.generateResult with
      | Except.error e => (effs ++ [Effect.generateCalled], some e)
      | Except.ok none => (effs ++ [Effect.generateCalled], none)
      | Except.ok (some _ins) =>
        let effs2 := effs ++ [Effect.generateCalled, Effect.saveInsightsCalled]
        match env.emitResult with
        | Except.error e => (effs2 ++ [Effect.emitCalled], some e)
        | Except.ok _ => (effs2 ++ [Effect.emitCalled], none)

/-- Embeds `SessionLearningHook._analyze_session_safe`: the
`except asyncio.CancelledError` and `except Exception` clauses log and
swallow every escaping error, so the wrapper always returns normally. -/
def analyzeSessionSafe (cfg : SessionLearningConfig) (env : AnalysisEnv) :
    Except AnalysisError (List Effect) :=
  match analyzeSession cfg env with
  | (effs, some AnalysisError.cancelled) => Except.ok effs
  | (effs, some (AnalysisError.exn _)) => Except.ok effs
  | (effs, none) => Except.ok effs

/-- The `HookResult` returned to the coordinator. -/
structure HookResult where
  action : String
  deriving DecidableEq, Repr

/-- The event-handler inputs of `on_session_end`: the `session_id` field
of the event payload (the coordinator passes an optional string),
whether a session directory was resolved and exists, the result of
`_load_metadata` — an arbitrary decoded JSON document, since
`_load_metadata` returns `json.loads(...)` unchecked (and `{}` on a
missing or unparseable file) — and the analysis-step environment. -/
structure SessionEndEnv where
  session_id : Option String
  session_dir_found : Bool
  metadata : Json
  analysis : AnalysisEnv

/-- The JSON values Python's `turn_count < int` comparison accepts: a
number, or a boolean (a bool is an int subclass, `True` compares as 1);
any other value raises `TypeError`. -/
def pyNumeric : Json → Option ℚ
  | Json.num q => some q
  | Json.bool b => some (if b then 1 else 0)
  | _ => none

/-- Embeds `SessionLearningHook.on_session_end`: missing/falsy session
id and an unresolved session directory acknowledge the event as a no-op;
then `metadata.get("turn_count", 0)` raises `AttributeError` when the
loaded metadata is not a JSON object, and the comparison
`turn_count < min_turns_for_analysis` raises `TypeError` when the field
is not numeric — both before the safe wrapper, escaping the handler.  A
low turn count is a no-op; otherwise the analysis runs under the safe
wrapper (inline, or as a spawned task whose effects are those of the
same safe wrapper), and the handler returns `continue`. -/
def onSessionEnd (cfg : SessionLearningConfig) (env : SessionEndEnv) :
    Except AnalysisError (HookResult × List Effect) :=
  match env.session_id with
  | none => Except.ok ({ action := "continue" }, [])
  | some sid =>
    if sid = "" then Except.ok ({ action := "continue" }, [])
    else if !env.session_dir_found then Except.ok ({ action := "continue" }, [])
    else
      match env.metadata with
      | Json.obj kvs =>
        match pyNumeric (objGetD kvs "turn_count" (Json.num 0)) with
        | some tc =>
          if tc < (cfg.min_turns_for_analysis : ℚ) then
            Except.ok ({ action := "continue" }, [])
          else
            match analyzeSessionSafe cfg env.analysis with
            | Except.ok effs => Except.ok ({ action := "continue" }, effs)
            | Except.error e => Except.error e
        | none => Except.error (AnalysisError.exn "TypeError")
      | _ => Except.error (AnalysisError.exn "AttributeError")

/-- The handler result as its caller sees it: the returned `HookResult`,
or `none` when an exception escaped the handler. -/
def handlerOutcome :
    Except AnalysisError (HookResult × List Effect) → Option HookResult
  | Except.ok (r, _) => some r
  | Except.error _ => none

/-- Loaded metadata on which the handler's own accesses succeed: a JSON
object whose `turn_count` entry (defaulting to `0` when absent) is a
value Python's int comparison accepts. -/
def MetadataWellFormed (j : Json) : Prop :=
  ∃ kvs tc, j = Json.obj kvs ∧
    pyNumeric (objGetD kvs "turn_count" (Json.num 0)) = some tc

/-! ## Claim C2: two-stage response parsing -/

/-- C2 counterexample.  The claim states that when the first stage fails —
including the case where a brace-delimited match is found but does not
parse as JSON — the parser falls back to parsing the entire response, so
absence requires both stages to fail.  On the response `["{a}"]` the
pattern search finds `{a}`, which does not parse, and `_parse_response`
returns `None` even though the entire response is valid JSON: the
`json.loads` failure inside the single `try` block is caught by the
`except` clause, skipping the whole-text parse. -/
theorem c2_match_parse_failure_no_fallback :
    parseResponse "[\"\x7ba\x7d\"]" = none ∧
      (jsonLoads "[\"\x7ba\x7d\"]").toOption.isSome = true := by
  constructor <;> rfl

/-- C2 (amended): for every provider response string, the parser first
searches for a brace-delimited candidate; when a match is found the result
is exactly the outcome of parsing the matched text (absent on parse
failure, with no whole-text fallback); only when no match is found does it
attempt to parse the entire response; a parse failure yields absent rather
than raising. -/
theorem c2_two_stage_decoder (r : String) :
    parseResponse r =
      (match braceSearch r.data with
       | some m => (jsonLoads (String.mk m)).toOption
       | none => (jsonLoads r).toOption) := by
  unfold parseResponse parseResponseBody
  cases braceSearch r.data with
  | some m => cases h : jsonLoads (String.mk m) <;> simp [h, Except.toOption]
  | none => cases h : jsonLoads r <;> simp [h, Except.toOption]

/-! ## Loop/fold correspondence and the event cap -/

/-- The counting loop processes exactly the first `maxEvents - count`
lines: it is a fold over that prefix. -/
theorem extractLoop_eq_foldl (privacy : PrivacyConfig) (home : String)
    (maxEvents : Nat) :
    ∀ (lines : List LogLine) (count : Nat) (st : MetricsState),
      extractLoop privacy home maxEvents count st lines =
        (lines.take (maxEvents - count)).foldl (processLine privacy home) st := by
  intro lines
  induction lines with
  | nil => intro count st; simp [extractLoop]
  | cons l rest ih =>
    intro count st
    by_cases h : maxEvents ≤ count
    · have hz : maxEvents - count = 0 := Nat.sub_eq_zero_of_le h
      simp [extractLoop, h, hz]
    · have hpos : maxEvents - count = (maxEvents - (count + 1)) + 1 := by omega
      simp only [extractLoop, if_neg h, hpos, List.take_succ_cons, List.foldl_cons]
      exact ih (count + 1) (processLine privacy home st l)

/-- C7: for every event log, metrics extraction examines exactly the first
`min(N, max_events_to_process)` records — the result on the full log
equals the result on the log truncated at the cap, so every record beyond
the cap is ignored regardless of its content. -/
theorem c7_event_cap (cfg : SessionLearningConfig) (home : String)
    (metadata : Metadata) (lines : List LogLine) :
    extractMetrics cfg home metadata (some lines) =
      extractMetrics cfg home metadata
        (some (lines.take cfg.max_events_to_process)) := by
  simp only [extractMetrics, extractLoop_eq_foldl, List.take_take,
    Nat.sub_zero, min_self]

/-! ## Error counting (Claim C5) -/

theorem tsUpdate_errors (st : MetricsState) (e : Event) :
    (tsUpdate st e).errors = st.errors := by
  unfold tsUpdate; split_ifs <;> rfl

theorem classifyEvent_errors (p : PrivacyConfig) (home : String)
    (st : MetricsState) (e : Event) :
    (classifyEvent p home st e).errors =
      st.errors + (if countsAsError e then 1 else 0) := by
  unfold classifyEvent
  by_cases h1 : e.event = "tool:post"
  · simp only [if_pos h1, countsAsError, h1]
    cases e.data.tool_input with
    | dict fp => simp; split_ifs <;> rfl
    | nondict => simp
  · rw [if_neg h1]
    by_cases h2 : e.event = "llm:response"
    · simp [h2, countsAsError]
    · rw [if_neg h2]
      by_cases h3 : e.event = "tool:error" ∨ e.event = "llm:error"
      · have hc : countsAsError e = true := by
          rcases h3 with h | h <;> simp [countsAsError, h]
        simp [if_pos h3, hc]
      · rw [if_neg h3]
        push_neg at h3
        by_cases h4 : e.lvl = some "ERROR"
        · have hc : countsAsError e = true := by
            simp [countsAsError, h1, h2, h3.1, h3.2, h4]
          simp [if_pos h4, hc]
        · have hc : countsAsError e = false := by
            simp [countsAsError, h1, h2, h3.1, h3.2, h4]
          simp [if_neg h4, hc]

theorem processEvent_errors (p : PrivacyConfig) (home : String)
    (st : MetricsState) (e : Event) :
    (processEvent p home st e).errors =
      st.errors + (if countsAsError e then 1 else 0) := by
  unfold processEvent
  rw [classifyEvent_errors, tsUpdate_errors]

theorem foldl_errors (p : PrivacyConfig) (home : String) :
    ∀ (lines : List LogLine) (st : MetricsState),
      ((lines.foldl (processLine p home) st).errors =
        st.errors + errorRecordCount lines) := by
  intro lines
  induction lines with
  | nil => intro st; simp [errorRecordCount]
  | cons l rest ih =>
    intro st
    cases l with
    | blank => simpa [errorRecordCount, processLine] using ih st
    | malformed => simpa [errorRecordCount, processLine] using ih st
    | record e =>
      simp only [List.foldl_cons, processLine, ih, processEvent_errors,
        errorRecordCount, List.filter_cons]
      split_ifs <;>
        first
          | (simp [errorRecordCount]; omega)
          | simp [errorRecordCount]

/-- C5 counterexample.  The claim states that every processed record of
any kind flagged at error severity increments the error counter.  A
tool-completion record (`event = "tool:post"`) carrying `lvl = "ERROR"`
is processed by the first branch of the `elif` chain, so the severity
check is never reached and the error count stays `0`. -/
theorem c5_severity_on_tool_post_not_counted :
    (extractMetrics {} "/home/u" {}
        (some [LogLine.record { event := "tool:post", lvl := some "ERROR" }])).map
      SessionMetrics.errors_encountered = some 0 := by
  rfl

/-- C5 (amended): the extracted error count equals the number of scanned
records (within the event cap) that either are of an explicit error kind
(`tool:error` or `llm:error`) or are of a kind other than `tool:post` and
`llm:response` and are flagged at error severity; in particular no record
is counted more than once, and a `tool:post` or `llm:response` record
flagged at error severity is not counted. -/
theorem c5_error_count (cfg : SessionLearningConfig) (home : String)
    (metadata : Metadata) (lines : List LogLine) (m : SessionMetrics)
    (hm : extractMetrics cfg home metadata (some lines) = some m) :
    m.errors_encountered =
      errorRecordCount (lines.take cfg.max_events_to_process) := by
  simp only [extractMetrics, extractLoop_eq_foldl, Nat.sub_zero,
    Option.some.injEq] at hm
  subst hm
  simpa using foldl_errors cfg.privacy home
    (List.take cfg.max_events_to_process lines) { model_used := metadata.model }

/-- C5 witness: on a log holding one `llm:error` record the amended
theorem applies and yields an error count of one. -/
theorem c5_error_count_witness :
    (extractMetrics {} "/home/u" {}
        (some [LogLine.record { event := "llm:error" }])).map
      SessionMetrics.errors_encountered =
      some (errorRecordCount
        ([LogLine.record { event := "llm:error" }].take
          ({} : SessionLearningConfig).max_events_to_process)) := by
  cases hm : extractMetrics {} "/home/u" {}
      (some [LogLine.record { event := "llm:error" }]) with
  | none => simp [extractMetrics] at hm
  | some m =>
    simpa [Option.map] using c5_error_count {} "/home/u" {} _ m hm

/-! ## Timestamp tracking and duration (Claim C6) -/

theorem classifyEvent_ts (p : PrivacyConfig) (home : String)
    (st : MetricsState) (e : Event) :
    (classifyEvent p home st e).first_ts = st.first_ts ∧
    (classifyEvent p home st e).last_ts = st.last_ts := by
  unfold classifyEvent
  split_ifs <;> try exact ⟨rfl, rfl⟩
  cases e.data.tool_input with
  | dict fp => dsimp only; split_ifs <;> exact ⟨rfl, rfl⟩
  | nondict => exact ⟨rfl, rfl⟩

theorem countTimestamped_cons_blank (rest : List LogLine) :
    countTimestamped (LogLine.blank :: rest) = countTimestamped rest := by
  simp [countTimestamped, List.filter_cons]

theorem countTimestamped_cons_malformed (rest : List LogLine) :
    countTimestamped (LogLine.malformed :: rest) = countTimestamped rest := by
  simp [countTimestamped, List.filter_cons]

theorem countTimestamped_cons_no_ts (e : Event) (rest : List LogLine)
    (h : e.ts = "") :
    countTimestamped (LogLine.record e :: rest) = countTimestamped rest := by
  simp [countTimestamped, List.filter_cons, h]

theorem countTimestamped_cons_ts (e : Event) (rest : List LogLine)
    (h : e.ts ≠ "") :
    countTimestamped (LogLine.record e :: rest) =
      countTimestamped rest + 1 := by
  simp [countTimestamped, List.filter_cons, h]

theorem processEvent_ts_keep (p : PrivacyConfig) (home : String)
    (st : MetricsState) (e : Event) (h : e.ts = "") :
    (processEvent p home st e).first_ts = st.first_ts ∧
    (processEvent p home st e).last_ts = st.last_ts := by
  unfold processEvent tsUpdate
  simp only [h, ne_eq, not_true_eq_false, if_false]
  exact classifyEvent_ts p home st e

theorem processEvent_ts_set (p : PrivacyConfig) (home : String)
    (st : MetricsState) (e : Event) (h : e.ts ≠ "")
    (hf : st.first_ts = none) :
    (processEvent p home st e).first_ts = some e.ts ∧
    (processEvent p home st e).last_ts = some e.ts := by
  unfold processEvent
  have h1 := classifyEvent_ts p home (tsUpdate st e) e
  have h2 : (tsUpdate st e).first_ts = some e.ts ∧
      (tsUpdate st e).last_ts = some e.ts := by
    unfold tsUpdate
    simp [h, hf]
  exact ⟨h1.1.trans h2.1, h1.2.trans h2.2⟩

theorem foldl_ts_untimestamped (p : PrivacyConfig) (home : String) :
    ∀ (lines : List LogLine) (st : MetricsState),
      countTimestamped lines = 0 →
      ((lines.foldl (processLine p home) st).first_ts = st.first_ts ∧
       (lines.foldl (processLine p home) st).last_ts = st.last_ts) := by
  intro lines
  induction lines with
  | nil => intro st _; exact ⟨rfl, rfl⟩
  | cons l rest ih =>
    intro st hc
    cases l with
    | blank =>
      rw [countTimestamped_cons_blank] at hc
      exact ih st hc
    | malformed =>
      rw [countTimestamped_cons_malformed] at hc
      exact ih st hc
    | record e =>
      by_cases hts : e.ts = ""
      · rw [countTimestamped_cons_no_ts e rest hts] at hc
        have step := processEvent_ts_keep p home st e hts
        have tail := ih (processEvent p home st e) hc
        exact ⟨tail.1.trans step.1, tail.2.trans step.2⟩
      · rw [countTimestamped_cons_ts e rest hts] at hc
        omega

theorem foldl_ts_single (p : PrivacyConfig) (home : String) :
    ∀ (lines : List LogLine) (st : MetricsState),
      countTimestamped lines ≤ 1 →
      st.first_ts = none → st.last_ts = none →
      (lines.foldl (processLine p home) st).first_ts =
        (lines.foldl (processLine p home) st).last_ts := by
  intro lines
  induction lines with
  | nil => intro st _ hf hl; simp [hf, hl]
  | cons l rest ih =>
    intro st hc hf hl
    cases l with
    | blank =>
      rw [countTimestamped_cons_blank] at hc
      exact ih st hc hf hl
    | malformed =>
      rw [countTimestamped_cons_malformed] at hc
      exact ih st hc hf hl
    | record e =>
      by_cases hts : e.ts = ""
      · rw [countTimestamped_cons_no_ts e rest hts] at hc
        have step := processEvent_ts_keep p home st e hts
        exact ih (processEvent p home st e) hc
          (step.1.trans hf) (step.2.trans hl)
      · rw [countTimestamped_cons_ts e rest hts] at hc
        have hc0 : countTimestamped rest = 0 := by omega
        have step := processEvent_ts_set p home st e hts hf
        have tail := foldl_ts_untimestamped p home rest
          (processEvent p home st e) hc0
        show (rest.foldl (processLine p home) (processEvent p home st e)).first_ts =
          (rest.foldl (processLine p home) (processEvent p home st e)).last_ts
        rw [tail.1, tail.2, step.1, step.2]

theorem tsDiffSeconds_self (t : PyDateTime) : tsDiffSeconds t t = some 0 := by
  unfold tsDiffSeconds
  cases h : t.offsetMin <;> simp

theorem computeDuration_same (s : String) :
    computeDuration (some s) (some s) = 0 := by
  unfold computeDuration
  split_ifs with h
  · simp only [Option.getD_some]
    cases hp : parsePyIso (replaceZ s) with
    | none => simp [hp]
    | some t => simp [hp, tsDiffSeconds_self t]
  · rfl

/-- C6: for every record stream, the extracted `duration_seconds` equals
`last − first` in seconds whenever both tracked endpoint timestamps parse
(after `Z` normalization) and their difference is defined; it is `0` when
fewer than two scanned records carry a truthy timestamp; and it is `0`
whenever either endpoint fails to parse or the subtraction fails
(naive/aware mix), rather than extraction failing. -/
theorem c6_duration (cfg : SessionLearningConfig) (home : String)
    (metadata : Metadata) (lines : List LogLine) (m : SessionMetrics)
    (hm : extractMetrics cfg home metadata (some lines) = some m) :
    (∀ f l t1 t2 d, m.started_at = some f → m.ended_at = some l →
        parsePyIso (replaceZ f) = some t1 → parsePyIso (replaceZ l) = some t2 →
        tsDiffSeconds t1 t2 = some d →
        m.duration_seconds = d) ∧
    (countTimestamped (lines.take cfg.max_events_to_process) < 2 →
        m.duration_seconds = 0) ∧
    (∀ f l, m.started_at = some f → m.ended_at = some l →
        (parsePyIso (replaceZ f) = none ∨ parsePyIso (replaceZ l) = none ∨
          (∀ t1 t2, parsePyIso (replaceZ f) = some t1 →
            parsePyIso (replaceZ l) = some t2 → tsDiffSeconds t1 t2 = none)) →
        m.duration_seconds = 0) := by
  simp only [extractMetrics, extractLoop_eq_foldl, Nat.sub_zero,
    Option.some.injEq] at hm
  subst hm
  refine ⟨?_, ?_, ?_⟩
  · intro f l t1 t2 d hf hl hp1 hp2 hd
    have hf' : (List.foldl (processLine cfg.privacy home)
        { model_used := metadata.model }
        (List.take cfg.max_events_to_process lines)).first_ts = some f := hf
    have hl' : (List.foldl (processLine cfg.privacy home)
        { model_used := metadata.model }
        (List.take cfg.max_events_to_process lines)).last_ts = some l := hl
    have hfne : f ≠ "" := by
      intro h0
      rw [h0] at hp1
      have hnone : parsePyIso (replaceZ "") = none := by decide
      rw [hnone] at hp1
      cases hp1
    have hlne : l ≠ "" := by
      intro h0
      rw [h0] at hp2
      have hnone : parsePyIso (replaceZ "") = none := by decide
      rw [hnone] at hp2
      cases hp2
    show computeDuration
      (List.foldl (processLine cfg.privacy home) { model_used := metadata.model }
        (List.take cfg.max_events_to_process lines)).first_ts
      (List.foldl (processLine cfg.privacy home) { model_used := metadata.model }
        (List.take cfg.max_events_to_process lines)).last_ts = d
    rw [hf', hl']
    unfold computeDuration
    rw [if_pos (by simp [truthyOpt, hfne, hlne])]
    simp [hp1, hp2, hd]
  · intro hcount
    have heq := foldl_ts_single cfg.privacy home
      (lines.take cfg.max_events_to_process) { model_used := metadata.model }
      (by omega) rfl rfl
    show computeDuration
      (List.foldl (processLine cfg.privacy home) { model_used := metadata.model }
        (List.take cfg.max_events_to_process lines)).first_ts
      (List.foldl (processLine cfg.privacy home) { model_used := metadata.model }
        (List.take cfg.max_events_to_process lines)).last_ts = 0
    cases hfst : (List.foldl (processLine cfg.privacy home)
        { model_used := metadata.model }
        (List.take cfg.max_events_to_process lines)).first_ts with
    | none =>
      have hlst := heq.symm.trans hfst
      rw [hlst]
      rfl
    | some t =>
      have hlst := heq.symm.trans hfst
      rw [hlst]
      exact computeDuration_same t
  · intro f l hf hl hbad
    have hf' : (List.foldl (processLine cfg.privacy home)
        { model_used := metadata.model }
        (List.take cfg.max_events_to_process lines)).first_ts = some f := hf
    have hl' : (List.foldl (processLine cfg.privacy home)
        { model_used := metadata.model }
        (List.take cfg.max_events_to_process lines)).last_ts = some l := hl
    show computeDuration
      (List.foldl (processLine cfg.privacy home) { model_used := metadata.model }
        (List.take cfg.max_events_to_process lines)).first_ts
      (List.foldl (processLine cfg.privacy home) { model_used := metadata.model }
        (List.take cfg.max_events_to_process lines)).last_ts = 0
    rw [hf', hl']
    unfold computeDuration
    split_ifs with h
    · simp only [Option.getD_some]
      rcases hbad with hb | hb | hb
      · simp [hb]
      · cases hp1 : parsePyIso (replaceZ f) with
        | none => simp [hp1]
        | some t1 => simp [hp1, hb]
      · cases hp1 : parsePyIso (replaceZ f) with
        | none => simp [hp1]
        | some t1 =>
          cases hp2 : parsePyIso (replaceZ l) with
          | none => simp [hp1, hp2]
          | some t2 => simp [hp1, hp2, hb t1 t2 hp1 hp2]
    · rfl

/-- The metrics record extracted from the two-timestamp witness log; its
duration field is stated as the duration computation applied to the two
endpoints, which is definitionally what extraction produces. -/
def mC6 : SessionMetrics :=
  { session_id := "unknown"
    duration_seconds := computeDuration (some "2024-01-01T00:00:00Z")
      (some "2024-01-01T00:00:45Z")
    turn_count := 0
    tool_usage := []
    files_read := []
    files_modified := []
    errors_encountered := 0
    llm_requests := 0
    total_input_tokens := 0
    total_output_tokens := 0
    model_used := none
    started_at := some "2024-01-01T00:00:00Z"
    ended_at := some "2024-01-01T00:00:45Z" }

/-- C6 witness: on a log with two parseable UTC timestamps 45 seconds
apart the theorem applies and the extracted duration is 45. -/
theorem c6_duration_witness :
    extractMetrics {} "/home/u" {}
        (some [LogLine.record { ts := "2024-01-01T00:00:00Z" },
               LogLine.record { ts := "2024-01-01T00:00:45Z" }]) = some mC6 ∧
      mC6.duration_seconds = 45 := by
  constructor
  · rfl
  · exact (c6_duration {} "/home/u" {}
      [LogLine.record { ts := "2024-01-01T00:00:00Z" },
       LogLine.record { ts := "2024-01-01T00:00:45Z" }] mC6 rfl).1
      "2024-01-01T00:00:00Z" "2024-01-01T00:00:45Z"
      { epochMicro := 1704067200000000, offsetMin := some 0 }
      { epochMicro := 1704067245000000, offsetMin := some 0 }
      45 rfl rfl (by decide) (by decide)
      (by unfold tsDiffSeconds; norm_num)

/-! ## File-path classification (Claim C10) -/

theorem mem_setAdd {l : List String} {x q : String} (h : q ∈ setAdd l x) :
    q ∈ l ∨ q = x := by
  unfold setAdd at h
  split_ifs at h with hx
  · exact Or.inl h
  · rcases List.mem_append.mp h with h1 | h1
    · exact Or.inl h1
    · simp only [List.mem_singleton] at h1
      exact Or.inr h1

theorem tsUpdate_files (st : MetricsState) (e : Event) :
    (tsUpdate st e).files_read = st.files_read ∧
    (tsUpdate st e).files_modified = st.files_modified := by
  unfold tsUpdate
  split_ifs <;> exact ⟨rfl, rfl⟩

theorem classifyEvent_files_read_mem (p : PrivacyConfig) (home : String)
    (st : MetricsState) (e : Event) (q : String)
    (h : q ∈ (classifyEvent p home st e).files_read) :
    q ∈ st.files_read ∨
      (e.event = "tool:post" ∧ ∃ fp,
        e.data.tool_input = ToolInputVal.dict fp ∧ fp ≠ "" ∧
        e.data.tool_name.getD "unknown" = "read_file" ∧
        q = sanitizePath p home fp) := by
  unfold classifyEvent at h
  split_ifs at h with h1 h2 h3 h4 <;> try exact Or.inl h
  cases htool : e.data.tool_input with
  | nondict => rw [htool] at h; exact Or.inl h
  | dict fp =>
    rw [htool] at h
    dsimp only at h
    split_ifs at h with hfp hread hwrite <;> try exact Or.inl h
    rcases mem_setAdd h with hq | hq
    · exact Or.inl hq
    · exact Or.inr ⟨h1, fp, rfl, hfp, hread, hq⟩

theorem classifyEvent_files_modified_mem (p : PrivacyConfig) (home : String)
    (st : MetricsState) (e : Event) (q : String)
    (h : q ∈ (classifyEvent p home st e).files_modified) :
    q ∈ st.files_modified ∨
      (e.event = "tool:post" ∧ ∃ fp,
        e.data.tool_input = ToolInputVal.dict fp ∧ fp ≠ "" ∧
        (e.data.tool_name.getD "unknown" = "write_file" ∨
         e.data.tool_name.getD "unknown" = "edit_file") ∧
        q = sanitizePath p home fp) := by
  unfold classifyEvent at h
  split_ifs at h with h1 h2 h3 h4 <;> try exact Or.inl h
  cases htool : e.data.tool_input with
  | nondict => rw [htool] at h; exact Or.inl h
  | dict fp =>
    rw [htool] at h
    dsimp only at h
    split_ifs at h with hfp hread hwrite <;> try exact Or.inl h
    rcases mem_setAdd h with hq | hq
    · exact Or.inl hq
    · exact Or.inr ⟨h1, fp, rfl, hfp, hwrite, hq⟩

theorem readSourced_cons {p : PrivacyConfig} {home : String} {l : LogLine}
    {rest : List LogLine} {q : String} (h : ReadSourced p home rest q) :
    ReadSourced p home (l :: rest) q := by
  obtain ⟨e, he, rest'⟩ := h
  exact ⟨e, List.mem_cons_of_mem _ he, rest'⟩

theorem writeSourced_cons {p : PrivacyConfig} {home : String} {l : LogLine}
    {rest : List LogLine} {q : String} (h : WriteSourced p home rest q) :
    WriteSourced p home (l :: rest) q := by
  obtain ⟨e, he, rest'⟩ := h
  exact ⟨e, List.mem_cons_of_mem _ he, rest'⟩

theorem foldl_files_read_mem (p : PrivacyConfig) (home : String) :
    ∀ (lines : List LogLine) (st : MetricsState) (q : String),
      q ∈ (lines.foldl (processLine p home) st).files_read →
      q ∈ st.files_read ∨ ReadSourced p home lines q := by
  intro lines
  induction lines with
  | nil => intro st q h; exact Or.inl h
  | cons l rest ih =>
    intro st q h
    rcases ih (processLine p home st l) q h with h1 | h1
    · cases l with
      | blank => exact Or.inl h1
      | malformed => exact Or.inl h1
      | record e =>
        have h2 : q ∈ (classifyEvent p home (tsUpdate st e) e).files_read := h1
        rcases classifyEvent_files_read_mem p home (tsUpdate st e) e q h2 with h3 | h3
        · rw [(tsUpdate_files st e).1] at h3
          exact Or.inl h3
        · exact Or.inr ⟨e, List.mem_cons_self _ _, h3.1, h3.2⟩
    · exact Or.inr (readSourced_cons h1)

theorem foldl_files_modified_mem (p : PrivacyConfig) (home : String) :
    ∀ (lines : List LogLine) (st : MetricsState) (q : String),
      q ∈ (lines.foldl (processLine p home) st).files_modified →
      q ∈ st.files_modified ∨ WriteSourced p home lines q := by
  intro lines
  induction lines with
  | nil => intro st q h; exact Or.inl h
  | cons l rest ih =>
    intro st q h
    rcases ih (processLine p home st l) q h with h1 | h1
    · cases l with
      | blank => exact Or.inl h1
      | malformed => exact Or.inl h1
      | record e =>
        have h2 : q ∈ (classifyEvent p home (tsUpdate st e) e).files_modified := h1
        rcases classifyEvent_files_modified_mem p home (tsUpdate st e) e q h2 with h3 | h3
        · rw [(tsUpdate_files st e).2] at h3
          exact Or.inl h3
        · exact Or.inr ⟨e, List.mem_cons_self _ _, h3.1, h3.2⟩
    · exact Or.inr (writeSourced_cons h1)

/-- C10: every entry of `files_read` comes from a scanned
tool-completion record whose tool name is exactly `read_file`, and every
entry of `files_modified` from one whose tool name is `write_file` or
`edit_file`, each carrying a nonempty `file_path` recorded only in its
sanitized form; tool-completion records for any other tool name contribute
to neither set. -/
theorem c10_file_classification (cfg : SessionLearningConfig) (home : String)
    (metadata : Metadata) (lines : List LogLine) (m : SessionMetrics)
    (hm : extractMetrics cfg home metadata (some lines) = some m) :
    (∀ q ∈ m.files_read,
        ReadSourced cfg.privacy home (lines.take cfg.max_events_to_process) q) ∧
    (∀ q ∈ m.files_modified,
        WriteSourced cfg.privacy home (lines.take cfg.max_events_to_process) q) := by
  simp only [extractMetrics, extractLoop_eq_foldl, Nat.sub_zero,
    Option.some.injEq] at hm
  subst hm
  constructor
  · intro q hq
    have hq' : q ∈ (List.foldl (processLine cfg.privacy home)
        { model_used := metadata.model }
        (List.take cfg.max_events_to_process lines)).files_read := hq
    rcases foldl_files_read_mem cfg.privacy home _ _ q hq' with h | h
    · cases h
    · exact h
  · intro q hq
    have hq' : q ∈ (List.foldl (processLine cfg.privacy home)
        { model_used := metadata.model }
        (List.take cfg.max_events_to_process lines)).files_modified := hq
    rcases foldl_files_modified_mem cfg.privacy home _ _ q hq' with h | h
    · cases h
    · exact h

/-- The event log and extracted record for the C10 witness. -/
def linesC10 : List LogLine :=
  [LogLine.record
    { event := "tool:post",
      data := { tool_name := some "read_file",
                tool_input := ToolInputVal.dict "/home/u/notes.txt" } }]

/-- The metrics record extracted from `linesC10`. -/
def mC10 : SessionMetrics :=
  { session_id := "unknown"
    duration_seconds := 0
    turn_count := 0
    tool_usage := [("read_file", 1)]
    files_read := ["~/notes.txt"]
    files_modified := []
    errors_encountered := 0
    llm_requests := 0
    total_input_tokens := 0
    total_output_tokens := 0
    model_used := none
    started_at := none
    ended_at := none }

/-- C10 witness: a `read_file` completion under `/home/u` lands in
`files_read` in `~`-collapsed form, and the theorem traces it back to
that record. -/
theorem c10_file_classification_witness :
    extractMetrics {} "/home/u" {} (some linesC10) = some mC10 ∧
      ReadSourced ({} : SessionLearningConfig).privacy "/home/u"
        (linesC10.take ({} : SessionLearningConfig).max_events_to_process)
        "~/notes.txt" := by
  constructor
  · rfl
  · exact (c10_file_classification {} "/home/u" {} linesC10 mC10 rfl).1
      "~/notes.txt" (by simp [mC10])

/-! ## Conversation-sample bounds (Claim C4) -/

theorem strMk_append_dots_length (l : List Char) :
    (String.mk l ++ "...").length = l.length + 3 := by
  show (l ++ ['.', '.', '.']).length = l.length + 3
  simp

theorem pySliceTo_le_length (l : List Char) (n : Int) :
    (pySliceTo l n).length ≤ l.length := by
  unfold pySliceTo
  split_ifs <;> simp [List.length_take]

theorem pySliceTo_le_bound (l : List Char) (n : Int) (h : 0 ≤ n) :
    ((pySliceTo l n).length : Int) ≤ n := by
  unfold pySliceTo
  rw [if_pos h]
  simp only [List.length_take]
  omega

/-- C4 counterexample.  The claim bounds the whole formatted sample by
`max_chars` plus one truncation marker (3 characters).  With one message
and `max_chars = 0` the formatter still emits the section header, the
role prefix and the total-count trailer: 48 characters, exceeding
`0 + 3`. -/
theorem c4_sample_exceeds_budget :
    (formatConversationSample [("user", "hello")] 0).length > 0 + 3 := by
  decide

/-- C4 (amended): each individual excerpt produced by the truncation
helper never exceeds its per-excerpt character limit by more than one
truncation-suffix marker (3 characters); the full formatted sample is not
bounded by `max_chars` plus one marker, since section headers, role
prefixes, newlines and the Recent window (budgeted from the full
`max_chars` again) add beyond it. -/
theorem c4_truncate_bound (text : String) (k : Nat) :
    (pyTruncate text (k : Int)).length ≤ k + 3 := by
  simp only [pyTruncate]
  have hk : (0 : Int) ≤ (k : Int) := Int.natCast_nonneg k
  have htr := pySliceTo_le_bound text.data (k : Int) hk
  split_ifs with h1 h2
  · have : text.length ≤ k := by exact_mod_cast h1
    omega
  · rw [strMk_append_dots_length]
    have h3 := pySliceTo_le_length (pySliceTo text.data (k : Int))
      (rfindSpace (pySliceTo text.data (k : Int)))
    omega
  · rw [strMk_append_dots_length]
    omega

/-! ## Generated outcome field (Claim C9) -/

/-- A metrics record for the generator claims. -/
def metricsG : SessionMetrics :=
  { session_id := "s1"
    duration_seconds := 120
    turn_count := 6
    tool_usage := []
    files_read := []
    files_modified := []
    errors_encountered := 0
    llm_requests := 1
    total_input_tokens := 10
    total_output_tokens := 20 }

/-- C9 counterexample.  The claim asserts every constructed insights
record has an outcome inside the closed set
`{success, partial, abandoned, error, unknown}` whenever the provider
response parses to a JSON object.  The response
`{"outcome": "banana"}` parses to an object, and `generate_insights`
stores the string `banana` verbatim — no validation against the closed
set happens. -/
theorem c9_outcome_unvalidated :
    outcomeOfResult (generateInsightsFromResponse {} "2024-01-01T00:00:00"
        metricsG "\x7b\"outcome\": \"banana\"\x7d") =
      some (Json.str "banana") ∧
    outcomeInClosedSet (Json.str "banana") = false := by
  constructor <;> rfl

/-- C9 (amended): for every provider response that parses to a truthy
(non-empty) JSON object, the constructed record's outcome is exactly the
object's `outcome` field (whatever JSON value the provider returned,
unvalidated), and it is the string `unknown` when the field is absent;
membership in the closed set is not enforced. -/
theorem c9_outcome_field (cfg : SessionLearningConfig) (now : String)
    (metrics : SessionMetrics) (response : String)
    (kvs : List (String × Json))
    (h1 : parseResponse response = some (Json.obj kvs))
    (h2 : jsonTruthy (Json.obj kvs) = true) :
    generateInsightsFromResponse cfg now metrics response =
      Except.ok (some (buildInsights cfg now metrics kvs)) ∧
    (buildInsights cfg now metrics kvs).outcome =
      objGetD kvs "outcome" (Json.str "unknown") ∧
    (objGetLast kvs "outcome" = none →
      (buildInsights cfg now metrics kvs).outcome = Json.str "unknown") := by
  refine ⟨?_, rfl, ?_⟩
  · unfold generateInsightsFromResponse
    rw [h1]
    simp [h2]
  · intro h
    show objGetD kvs "outcome" (Json.str "unknown") = Json.str "unknown"
    unfold objGetD
    rw [h]
    rfl

/-- C9 witness: a truthy object response without an `outcome` field
yields the default outcome `unknown`. -/
theorem c9_outcome_field_witness :
    generateInsightsFromResponse {} "2024-01-01T00:00:00" metricsG
        "\x7b\"summary\": \"hi\"\x7d" =
      Except.ok (some (buildInsights {} "2024-01-01T00:00:00" metricsG
        [("summary", Json.str "hi")])) ∧
    (buildInsights {} "2024-01-01T00:00:00" metricsG
        [("summary", Json.str "hi")]).outcome = Json.str "unknown" := by
  have h := c9_outcome_field {} "2024-01-01T00:00:00" metricsG
    "\x7b\"summary\": \"hi\"\x7d" [("summary", Json.str "hi")] rfl rfl
  exact ⟨h.1, h.2.2 rfl⟩

/-! ## Storage tiers (Claim C1) -/

/-- The metrics record saved in the C1 scenario. -/
def mC1 : SessionMetrics :=
  { session_id := "abc"
    duration_seconds := 0
    turn_count := 3
    tool_usage := []
    files_read := []
    files_modified := []
    errors_encountered := 0
    llm_requests := 0
    total_input_tokens := 0
    total_output_tokens := 0 }

/-- The insights record saved in the C1 scenario, for the same session
id. -/
def insC1 : SessionInsightsJ :=
  buildInsights {} "2024-01-01T01:00:00" mC1 [("outcome", Json.str "success")]

/-- C1: `save_metrics_only("abc")` followed by `save_insights("abc")`.
`load_insights("abc")` does return the insights record, but the
metrics-only record is NOT superseded: the two saves write to different
directories (`…/insights/metrics/abc.json` vs
`…/insights/sessions/abc.json`), so the metrics-only record survives
unchanged at its own slot, contradicting the claim (and the code's own
comment "overwrites metrics-only if exists"). -/
theorem c1_metrics_record_survives :
    loadInsights "/home/u"
        ((saveInsights "/home/u" insC1
          ((saveMetricsOnly {} "/home/u" "2024-01-01T00:30:00" mC1 []).1)).1)
        "abc" = some (StoredRecord.insightsFull insC1) ∧
    fsRead
        ((saveInsights "/home/u" insC1
          ((saveMetricsOnly {} "/home/u" "2024-01-01T00:30:00" mC1 []).1)).1)
        (metricsFilePath "/home/u" "abc") =
      some (StoredRecord.metricsOnly
        (metricsEnvelope {} "2024-01-01T00:30:00" mC1)) := by
  constructor <;> rfl

/-! ## Orchestrator totality and the threshold scenario (Claims C3, C8) -/

/-- A generic analysis environment for the C3 concrete inputs. -/
def analysisEnvC3 : AnalysisEnv :=
  { extractResult := none
    sampleResult := ""
    generateResult := Except.ok none
    emitResult := Except.ok () }

/-- A session-end event whose metadata loaded as the valid JSON document
`[]` (not an object). -/
def envC3arr : SessionEndEnv :=
  { session_id := some "abc"
    session_dir_found := true
    metadata := Json.arr []
    analysis := analysisEnvC3 }

/-- A session-end event whose metadata is an object carrying a
non-numeric `turn_count`. -/
def envC3str : SessionEndEnv :=
  { envC3arr with metadata := Json.obj [("turn_count", Json.str "3")] }

/-- C3 counterexample.  The claim states the handler never raises for
any metadata.  When `metadata.json` parses to the valid JSON document
`[]`, `metadata.get("turn_count", 0)` raises `AttributeError`, and when
it parses to `{"turn_count": "3"}` the comparison
`turn_count < min_turns_for_analysis` raises `TypeError` — both in
`on_session_end` itself, before the safe wrapper, so the exception
escapes to the caller and no `continue` result is returned. -/
theorem c3_malformed_metadata_raises :
    onSessionEnd {} envC3arr =
      Except.error (AnalysisError.exn "AttributeError") ∧
    onSessionEnd {} envC3str =
      Except.error (AnalysisError.exn "TypeError") := by
  constructor <;> rfl

/-- C3 (amended): for every session-end event whose loaded metadata is a
JSON object whose `turn_count` entry (defaulting to 0 when absent) is
numeric — so the handler's own metadata accesses succeed — the handler
never raises and always returns the `continue` result, for any session
id, any session-directory resolution, and any outcome of the extraction,
generation, storage and emit steps, including cancellation anywhere in
the analysis: every analysis-path error terminates inside the safe
wrapper. -/
theorem c3_handler_returns_continue (cfg : SessionLearningConfig)
    (env : SessionEndEnv) (hmeta : MetadataWellFormed env.metadata) :
    handlerOutcome (onSessionEnd cfg env) =
      some { action := "continue" } := by
  obtain ⟨kvs, tc, hkvs, htc⟩ := hmeta
  unfold onSessionEnd
  cases hsid : env.session_id with
  | none => rfl
  | some sid =>
    dsimp only
    split_ifs with h1 h2
    · rfl
    · rfl
    · rw [hkvs]
      dsimp only
      rw [htc]
      dsimp only
      split_ifs with h3
      · rfl
      · unfold analyzeSessionSafe
        rcases h : analyzeSession cfg env.analysis with ⟨effs, err⟩
        cases err with
        | none => rfl
        | some e => cases e with
          | cancelled => rfl
          | exn msg => rfl

/-- The well-formed-metadata environment for the C3 witness: metadata
loaded as the empty object, so `turn_count` defaults to 0. -/
def envC3ok : SessionEndEnv :=
  { envC3arr with metadata := Json.obj [] }

/-- C3 witness: with metadata `{}` the amended theorem applies and the
handler returns `continue`. -/
theorem c3_handler_returns_continue_witness :
    MetadataWellFormed (Json.obj []) ∧
    handlerOutcome (onSessionEnd {} envC3ok) =
      some { action := "continue" } := by
  have hm : MetadataWellFormed (Json.obj []) := ⟨[], 0, rfl, rfl⟩
  exact ⟨hm, c3_handler_returns_continue {} envC3ok hm⟩

/-- The C8 scenario configuration (all other settings at defaults). -/
def cfgC8 : SessionLearningConfig :=
  { min_turns_for_metrics := 2
    min_duration_for_metrics := 30
    llm_analysis_mode := "threshold"
    min_turns_for_llm_analysis := 5 }

/-- C8: under the scenario configuration, a 3-turn 45-second session
passes the metrics tier (metrics-only save is called) but fails the
stricter LLM threshold (3 < 5), so the generator is never invoked and no
completion event is emitted. -/
theorem c8_threshold_scenario (env : AnalysisEnv) (metrics : SessionMetrics)
    (h1 : env.extractResult = some metrics)
    (h2 : metrics.turn_count = 3) (h3 : metrics.duration_seconds = 45) :
    analyzeSession cfgC8 env = ([Effect.saveMetricsCalled], none) ∧
    Effect.generateCalled ∉ (analyzeSession cfgC8 env).1 ∧
    Effect.emitCalled ∉ (analyzeSession cfgC8 env).1 := by
  have hmain : analyzeSession cfgC8 env = ([Effect.saveMetricsCalled], none) := by
    unfold analyzeSession
    rw [h1]
    simp only [cfgC8, h2, h3]
    norm_num
  exact ⟨hmain, by rw [hmain]; simp, by rw [hmain]; simp⟩

/-- The C8 witness environment. -/
def envC8 : AnalysisEnv :=
  { extractResult := some
      { session_id := "s8"
        duration_seconds := 45
        turn_count := 3
        tool_usage := []
        files_read := []
        files_modified := []
        errors_encountered := 0
        llm_requests := 0
        total_input_tokens := 0
        total_output_tokens := 0 }
    sampleResult := ""
    generateResult := Except.ok none
    emitResult := Except.ok () }

/-- C8 witness: the scenario instantiated with a concrete environment. -/
theorem c8_threshold_scenario_witness :
    analyzeSession cfgC8 envC8 = ([Effect.saveMetricsCalled], none) :=
  (c8_threshold_scenario envC8 _ rfl rfl rfl).1

end SessionLearning
